import Mathlib

/-!
Shallow embedding of the promise implementation in src/index.js of the
ochukai/promise repository, together with theorems checking the claims of
its specification.  JavaScript objects are modelled by an explicit store
(`World`); machine effects (setTimeout, closure-captured mutable cells,
the first-call-wins latch of `__callThen`, and the shared counter of
`Promise.all`) are explicit fields of that store.  All functions are
fuel-indexed so that the mutually re-entrant settlement code of the
source terminates structurally; running out of fuel leaves the world
unchanged, and every theorem is stated at a fuel that suffices.
-/

namespace PromiseSpec

/-- The three-valued promise status: PENDING = 0, FULFILLED = 1,
REJECTED = 2 in src/index.js. -/
inductive PState where
  | pending
  | fulfilled
  | rejected
deriving DecidableEq, Repr, BEq

mutual

/-- JavaScript values occurring in this development.  A promise instance
is represented by a reference (index) into the world store; callables are
defunctionalized as `FnCode`.  Among the modelled values, exactly the
promise references carry a callable member named then (see `getThen`). -/
inductive JSVal where
  | undef
  | jbool (b : Bool)
  | num (n : Int)
  | str (s : String)
  | arr (elems : List JSVal)
  | typeError (msg : String)
  | promiseRef (id : Nat)
  | fn (f : FnCode)

/-- Defunctionalized callables: `noop` is util.noop; `resolveTrigger` and
`rejectTrigger` are the two closures allocated by Promise.prototype.__callThen
(sharing the mutable `called` flag, modelled by a latch cell); `allResolved`
and `allRejected` are the two handlers created inside Promise.all (sharing
`countDone`, `values` and `len` through a cell); `raceResolver` is the
resolver function passed by Promise.race to the constructor;
`scriptResolver` is a resolver performing a given sequence of trigger
invocations; `boundThen` is the wrapper util.getThen builds around
target.then; `constFn` and `throwFn` are plain user handlers that return
or throw a fixed value. -/
inductive FnCode where
  | noop
  | constFn (v : JSVal)
  | throwFn (e : JSVal)
  | resolveTrigger (latch : Nat) (target : Nat)
  | rejectTrigger (latch : Nat) (target : Nat)
  | allResolved (cell : Nat) (agg : Nat) (index : Nat)
  | allRejected (agg : Nat)
  | raceResolver (values : JSVal)
  | scriptResolver (script : List ScriptStep)
  | boundThen (target : Nat)

/-- One step of a resolver script: invoke the resolve trigger or the
reject trigger with the given value. -/
inductive ScriptStep where
  | callRes (v : JSVal)
  | callRej (v : JSVal)

end

/-- The result of invoking a modelled JavaScript function: a returned
value or a thrown one. -/
inductive CallRes where
  | returned (v : JSVal)
  | thrown (e : JSVal)

/-- The Executor of src/index.js: a continuation record pairing the
downstream promise with the two optional handlers of a then call. -/
structure Executor where
  promise : Nat
  onResolved : JSVal
  onRejected : JSVal

/-- A promise object: `state`, `value` (initialized to 0 by the
constructor) and the waiter `queue` of Executors. -/
structure PromiseObj where
  state : PState
  value : JSVal
  queue : List Executor

/-- The closure state shared by the handlers of one Promise.all call:
`countDone`, `len` and the `values` array. -/
structure AllCell where
  countDone : Nat
  len : Nat
  values : List JSVal

/-- A deferred task queued by setTimeout in Promise.prototype.__runInOrder:
the promise to settle (`self`), the handler `fn` and the settled `value`
to pass to it. -/
structure STask where
  self : Nat
  fn : JSVal
  value : JSVal

/-- Instrumentation record: one modelled function invocation (the
callable and its first argument). -/
structure LogEntry where
  fn : JSVal
  arg : JSVal

/-- The whole mutable world: the promise store, the latch cells of
__callThen instances, the shared cells of Promise.all instances, the
FIFO queue of setTimeout tasks, and the invocation log (most recent
first). -/
structure World where
  promises : List PromiseObj
  latches : List Bool
  cells : List AllCell
  tasks : List STask
  log : List LogEntry

/-- The empty initial world. -/
def emptyWorld : World := ⟨[], [], [], [], []⟩

/-- util.isFunction: typeof === function.  Among modelled values exactly
the `fn` values are functions. -/
def isFunction : JSVal → Bool
  | .fn _ => true
  | _ => false

/-- Whether a value is the util.noop sentinel (the constructor skips
invoking it). -/
def isNoop : JSVal → Bool
  | .fn .noop => true
  | _ => false

/-- util.isArray: Object.prototype.toString check.  Among modelled values
exactly the `arr` values are arrays. -/
def isArr : JSVal → Bool
  | .arr _ => true
  | _ => false

/-- util.getThen: when the target is object-or-function-like and exposes
a callable member named then, return the wrapper that invokes that member
bound to the target.  Among the modelled values exactly the promise
references carry a callable then (Promise.prototype.then); arrays,
strings, numbers, errors and the defunctionalized callables of this
development carry none. -/
def getThen : JSVal → Option Nat
  | .promiseRef id => some id
  | _ => none

/-- Read a promise object from the store (out-of-range reads yield an
inert pending object). -/
def getP (w : World) (id : Nat) : PromiseObj :=
  w.promises.getD id ⟨.pending, .undef, []⟩

/-- Write a promise object back to the store. -/
def setP (w : World) (id : Nat) (p : PromiseObj) : World :=
  { w with promises := w.promises.set id p }

/-- new Promise(util.noop): append a fresh pending promise with value 0
and an empty queue; returns the world and the new reference. -/
def allocPromise (w : World) : World × Nat :=
  ({ w with promises := w.promises ++ [⟨.pending, .num 0, []⟩] }, w.promises.length)

/-- Scenario fixture: append an already settled promise with an empty
queue. -/
def addSettled (w : World) (st : PState) (v : JSVal) : World × Nat :=
  ({ w with promises := w.promises ++ [⟨st, v, []⟩] }, w.promises.length)

/-- Read a latch cell (the `called` flag of one __callThen instance). -/
def getLatch (w : World) (i : Nat) : Bool :=
  w.latches.getD i false

/-- Write a latch cell. -/
def setLatch (w : World) (i : Nat) (b : Bool) : World :=
  { w with latches := w.latches.set i b }

/-- Allocate a fresh latch cell, initially false (var called = false). -/
def allocLatch (w : World) : World × Nat :=
  ({ w with latches := w.latches ++ [false] }, w.latches.length)

/-- Read a Promise.all cell. -/
def getCell (w : World) (i : Nat) : AllCell :=
  w.cells.getD i ⟨0, 0, []⟩

/-- Write a Promise.all cell. -/
def setCell (w : World) (i : Nat) (c : AllCell) : World :=
  { w with cells := w.cells.set i c }

/-- Allocate the shared cell of one Promise.all call: countDone = 0 and
values = new Array(len) (holes read as undefined). -/
def allocCell (w : World) (len : Nat) : World × Nat :=
  ({ w with cells := w.cells ++ [⟨0, len, List.replicate len .undef⟩] }, w.cells.length)

/-- Record one modelled function invocation. -/
def logCall (w : World) (f : JSVal) (a : JSVal) : World :=
  { w with log := ⟨f, a⟩ :: w.log }

/-- The identity comparison ret === self of __runInOrder: the returned
value is the very promise object being settled. -/
def retEqSelf (ret : JSVal) (id : Nat) : Bool :=
  match ret with
  | .promiseRef j => j == id
  | _ => false

/-- Promise.prototype.__runInOrder, scheduling part: setTimeout appends
the dispatch task to the FIFO task queue; nothing runs synchronously.
The body of the scheduled callback is `runTask`. -/
def runInOrder (w : World) (selfId : Nat) (fn : JSVal) (value : JSVal) : World :=
  { w with tasks := w.tasks ++ [⟨selfId, fn, value⟩] }

/-- Append an Executor to a promise queue (the pending branch of then). -/
def pushExec (w : World) (id : Nat) (ex : Executor) : World :=
  let p := getP w id
  setP w id { p with queue := p.queue ++ [ex] }

/-- Promise.prototype.then.  If the handler matching the current settled
state is not callable, return this unchanged (the early-return
optimization); otherwise allocate promise2 = new Promise(util.noop), then
either schedule dispatch via __runInOrder (already settled) or push an
Executor onto the waiter queue (still pending). -/
def thenImpl (w : World) (id : Nat) (onResolved onRejected : JSVal) : World × Nat :=
  let p := getP w id
  if (!(isFunction onResolved) && p.state == .fulfilled)
      || (!(isFunction onRejected) && p.state == .rejected) then
    (w, id)
  else
    let a := allocPromise w
    if p.state == .pending then
      (pushExec a.1 id ⟨a.2, onResolved, onRejected⟩, a.2)
    else
      let dummy := if p.state == .fulfilled then onResolved else onRejected
      (runInOrder a.1 a.2 dummy p.value, a.2)

mutual

/-- Application of a modelled callable to up to two arguments (the second
argument is only consulted by the resolver-shaped callables, which the
source invokes as then(resolve, reject)).  Every invocation is logged.
Calling a non-callable value throws a type error. -/
def call2 : Nat → World → JSVal → JSVal → JSVal → World × CallRes
  | 0, w, _, _, _ => (w, .returned .undef)
  | Nat.succ fuel, w, f, a, b =>
    let w := logCall w f a
    match f with
    | .fn .noop => (w, .returned .undef)
    | .fn (.constFn v) => (w, .returned v)
    | .fn (.throwFn e) => (w, .thrown e)
    | .fn (.resolveTrigger latch target) =>
      if getLatch w latch then (w, .returned .undef)
      else (doResolve fuel (setLatch w latch true) target a, .returned .undef)
    | .fn (.rejectTrigger latch target) =>
      if getLatch w latch then (w, .returned .undef)
      else (doReject fuel (setLatch w latch true) target a, .returned .undef)
    | .fn (.allResolved cellId aggId idx) =>
      let c := getCell w cellId
      let c2 : AllCell := ⟨c.countDone + 1, c.len, c.values.set idx a⟩
      let w := setCell w cellId c2
      if c2.countDone == c2.len then (doResolve fuel w aggId (.arr c2.values), .returned .undef)
      else (w, .returned .undef)
    | .fn (.allRejected aggId) => (doReject fuel w aggId a, .returned .undef)
    | .fn (.scriptResolver script) => (runScriptSteps fuel w a b script, .returned .undef)
    | .fn (.raceResolver values) =>
      match values with
      | .arr xs => (raceForEach fuel w xs a b, .returned .undef)
      | _ => (w, .thrown (.typeError "values.forEach is not a function"))
    | .fn (.boundThen target) => ((thenImpl w target a b).1, .returned .undef)
    | _ => (w, .thrown (.typeError "not a function"))

/-- Run a resolver script: each step invokes the resolve trigger or the
reject trigger it was handed, in order. -/
def runScriptSteps : Nat → World → JSVal → JSVal → List ScriptStep → World
  | 0, w, _, _, _ => w
  | Nat.succ _, w, _, _, [] => w
  | Nat.succ fuel, w, res, rej, step :: rest =>
    match step with
    | .callRes v => runScriptSteps fuel (call2 fuel w res v .undef).1 res rej rest
    | .callRej v => runScriptSteps fuel (call2 fuel w rej v .undef).1 res rej rest

/-- The body of Promise.race: values.forEach of
Promise.resolve(value).then(resolve, reject). -/
def raceForEach : Nat → World → List JSVal → JSVal → JSVal → World
  | 0, w, _, _, _ => w
  | Nat.succ _, w, [], _, _ => w
  | Nat.succ fuel, w, v :: rest, res, rej =>
    let a := promiseResolveStatic fuel w v
    let b := thenImpl a.1 a.2 res rej
    raceForEach fuel b.1 rest res rej

/-- Promise.prototype.__callThen: allocate the first-call-wins latch
(var called = false), build the two trigger closures over it, invoke
then(resolve, reject), and on a synchronous throw reject this promise,
still under the latch. -/
def callThen : Nat → World → Nat → JSVal → World
  | 0, w, _, _ => w
  | Nat.succ fuel, w, selfId, thenArg =>
    let al := allocLatch w
    let res := JSVal.fn (.resolveTrigger al.2 selfId)
    let rej := JSVal.fn (.rejectTrigger al.2 selfId)
    match call2 fuel al.1 thenArg res rej with
    | (w2, .returned _) => w2
    | (w2, .thrown e) =>
      if getLatch w2 al.2 then w2
      else doReject fuel (setLatch w2 al.2 true) selfId e

/-- Promise.prototype.doResolve: if the value is a thenable, adopt it via
__callThen on its bound then; otherwise set state FULFILLED, store the
value, and dispatch doResolve of that value to every queued Executor in
order.  The surrounding try/catch of the source never fires in the model
because no modelled step inside it throws. -/
def doResolve : Nat → World → Nat → JSVal → World
  | 0, w, _, _ => w
  | Nat.succ fuel, w, selfId, value =>
    match getThen value with
    | some target => callThen fuel w selfId (.fn (.boundThen target))
    | none =>
      let p := getP w selfId
      let w := setP w selfId { p with state := .fulfilled, value := value }
      dispatchResolve fuel w p.queue value

/-- Promise.prototype.doReject: set state REJECTED unconditionally, store
the reason, and dispatch doReject of that reason to every queued Executor
in order. -/
def doReject : Nat → World → Nat → JSVal → World
  | 0, w, _, _ => w
  | Nat.succ fuel, w, selfId, err =>
    let p := getP w selfId
    let w := setP w selfId { p with state := .rejected, value := err }
    dispatchReject fuel w p.queue err

/-- queue.forEach (item.doResolve(value)). -/
def dispatchResolve : Nat → World → List Executor → JSVal → World
  | 0, w, _, _ => w
  | Nat.succ _, w, [], _ => w
  | Nat.succ fuel, w, ex :: rest, v =>
    dispatchResolve fuel (execResolve fuel w ex v) rest v

/-- queue.forEach (item.doReject(err)). -/
def dispatchReject : Nat → World → List Executor → JSVal → World
  | 0, w, _, _ => w
  | Nat.succ _, w, [], _ => w
  | Nat.succ fuel, w, ex :: rest, e =>
    dispatchReject fuel (execReject fuel w ex e) rest e

/-- Executor.prototype.doResolve: schedule the callable handler via
__runInOrder, or pass the value through to the downstream promise. -/
def execResolve : Nat → World → Executor → JSVal → World
  | 0, w, _, _ => w
  | Nat.succ fuel, w, ex, v =>
    if isFunction ex.onResolved then runInOrder w ex.promise ex.onResolved v
    else doResolve fuel w ex.promise v

/-- Executor.prototype.doReject: schedule the callable handler via
__runInOrder, or pass the reason through to the downstream promise. -/
def execReject : Nat → World → Executor → JSVal → World
  | 0, w, _, _ => w
  | Nat.succ fuel, w, ex, e =>
    if isFunction ex.onRejected then runInOrder w ex.promise ex.onRejected e
    else doReject fuel w ex.promise e

/-- Promise.resolve: a Promise instance is returned unchanged; any other
value is wrapped by new Promise(util.noop).doResolve(value). -/
def promiseResolveStatic : Nat → World → JSVal → World × Nat
  | 0, w, _ => (w, 0)
  | Nat.succ fuel, w, v =>
    match v with
    | .promiseRef id => (w, id)
    | _ =>
      let a := allocPromise w
      (doResolve fuel a.1 a.2 v, a.2)

end

/-- The body of the setTimeout callback of __runInOrder: invoke the
handler on the value; on a throw reject self with the thrown value; if
the returned value is reference-identical to self reject with a type
error; otherwise resolve self with the returned value. -/
def runTask (fuel : Nat) (w : World) (t : STask) : World :=
  match call2 fuel w t.fn t.value .undef with
  | (w2, .thrown e) => doReject fuel w2 t.self e
  | (w2, .returned ret) =>
    if retEqSelf ret t.self then
      doReject fuel w2 t.self (.typeError "Cannot resolve promise with itself.")
    else doResolve fuel w2 t.self ret

/-- One scheduler step: run the oldest queued task (FIFO), if any. -/
def stepTask (fuel : Nat) (w : World) : World :=
  match w.tasks with
  | [] => w
  | t :: rest => runTask fuel { w with tasks := rest } t

/-- Run n scheduler steps. -/
def drain (fuel : Nat) : Nat → World → World
  | 0, w => w
  | Nat.succ n, w => drain fuel n (stepTask fuel w)

/-- The Promise constructor: a non-callable resolver throws a type error
synchronously, before any object is produced; otherwise the fields are
initialized (state PENDING, value 0, empty queue) and, unless the
resolver is the util.noop sentinel, __callThen invokes it. -/
def promiseCtor (fuel : Nat) (w : World) (resolver : JSVal) : Except JSVal (World × Nat) :=
  if isFunction resolver then
    let a := allocPromise w
    if isNoop resolver then .ok a
    else .ok (callThen fuel a.1 a.2 resolver, a.2)
  else
    .error (.typeError "resolver must be a function")

/-- Promise.reject: new Promise(util.noop).doReject(err). -/
def promiseRejectStatic (fuel : Nat) (w : World) (e : JSVal) : World × Nat :=
  let a := allocPromise w
  (doReject fuel a.1 a.2 e, a.2)

/-- The arr.forEach loop of Promise.all: wrap each item with
Promise.resolve and register the pair of closures sharing the cell. -/
def allForEach (fuel : Nat) (cellId aggId : Nat) :
    World → List JSVal → Nat → World
  | w, [], _ => w
  | w, item :: rest, i =>
    let a := promiseResolveStatic fuel w item
    let b := thenImpl a.1 a.2 (.fn (.allResolved cellId aggId i)) (.fn (.allRejected aggId))
    allForEach fuel cellId aggId b.1 rest (i + 1)

/-- Promise.all: allocate the aggregate promise; reject it at once when
the argument is not an array; otherwise allocate the shared cell
(countDone = 0, values = new Array(len)) and run the forEach loop. -/
def promiseAll (fuel : Nat) (w : World) (arg : JSVal) : World × Nat :=
  let a := allocPromise w
  match arg with
  | .arr items =>
    let c := allocCell a.1 items.length
    (allForEach fuel c.2 a.2 c.1 items 0, a.2)
  | _ => (doReject fuel a.1 a.2 (.typeError "argument must be an array."), a.2)

/-- Promise.race: new Promise of the resolver that iterates the argument,
registering the two constructor triggers on each wrapped item. -/
def promiseRace (fuel : Nat) (w : World) (values : JSVal) : World × Nat :=
  let a := allocPromise w
  (callThen fuel a.1 a.2 (.fn (.raceResolver values)), a.2)

/-- The Deferred handle: its constructor runs a resolver that captures
the two latched triggers of __callThen into the handle; modelled by
constructing the captured pair directly (one fresh promise, one fresh
latch, the two triggers over them). -/
structure DeferredObj where
  promise : Nat
  resolveFn : JSVal
  rejectFn : JSVal

/-- Build a Deferred handle. -/
def newDeferred (w : World) : World × DeferredObj :=
  let a := allocPromise w
  let l := allocLatch a.1
  (l.1, ⟨a.2, .fn (.resolveTrigger l.2 a.2), .fn (.rejectTrigger l.2 a.2)⟩)

/-! Computation lemmas for the derived boolean equality on `PState`. -/

@[simp] theorem pstate_beq_pp : (PState.pending == PState.pending) = true := rfl
@[simp] theorem pstate_beq_pf : (PState.pending == PState.fulfilled) = false := rfl
@[simp] theorem pstate_beq_pr : (PState.pending == PState.rejected) = false := rfl
@[simp] theorem pstate_beq_fp : (PState.fulfilled == PState.pending) = false := rfl
@[simp] theorem pstate_beq_ff : (PState.fulfilled == PState.fulfilled) = true := rfl
@[simp] theorem pstate_beq_fr : (PState.fulfilled == PState.rejected) = false := rfl
@[simp] theorem pstate_beq_rp : (PState.rejected == PState.pending) = false := rfl
@[simp] theorem pstate_beq_rf : (PState.rejected == PState.fulfilled) = false := rfl
@[simp] theorem pstate_beq_rr : (PState.rejected == PState.rejected) = true := rfl

/-! Small list lemmas about `List.getD`, `List.set` and append, proved from
first principles so they compute the store reads of the model. -/

theorem getD_set_self {α : Type} : ∀ (l : List α) (i : Nat) (a d : α),
    i < l.length → (l.set i a).getD i d = a
  | _ :: _, 0, _, _, _ => rfl
  | _ :: xs, i + 1, a, d, h => getD_set_self xs i a d (Nat.lt_of_succ_lt_succ h)

theorem getD_set_ne {α : Type} : ∀ (l : List α) (i j : Nat) (a d : α),
    i ≠ j → (l.set i a).getD j d = l.getD j d
  | [], _, _, _, _, _ => rfl
  | _ :: _, 0, 0, _, _, h => absurd rfl h
  | _ :: _, 0, _ + 1, _, _, _ => rfl
  | _ :: _, _ + 1, 0, _, _, _ => rfl
  | _ :: xs, i + 1, j + 1, a, d, h =>
    getD_set_ne xs i j a d (fun hh => h (congrArg Nat.succ hh))

theorem getD_append_left {α : Type} : ∀ (l l2 : List α) (i : Nat) (d : α),
    i < l.length → (l ++ l2).getD i d = l.getD i d
  | _ :: _, _, 0, _, _ => rfl
  | _ :: xs, l2, i + 1, d, h => getD_append_left xs l2 i d (Nat.lt_of_succ_lt_succ h)

theorem getD_append_len {α : Type} : ∀ (l l2 : List α) (d : α),
    (l ++ l2).getD l.length d = l2.getD 0 d
  | [], _, _ => rfl
  | _ :: xs, l2, d => getD_append_len xs l2 d

theorem getD_oob {α : Type} : ∀ (l : List α) (i : Nat) (d : α),
    l.length ≤ i → l.getD i d = d
  | [], 0, _, _ => rfl
  | [], _ + 1, _, _ => rfl
  | _ :: xs, i + 1, d, h => getD_oob xs i d (Nat.le_of_succ_le_succ h)

/-! Field-preservation lemmas for the primitive world operations. -/

@[simp] theorem getP_logCall (w : World) (f a : JSVal) (i : Nat) :
    getP (logCall w f a) i = getP w i := rfl

@[simp] theorem getP_runInOrder (w : World) (s : Nat) (f v : JSVal) (i : Nat) :
    getP (runInOrder w s f v) i = getP w i := rfl

@[simp] theorem getP_setLatch (w : World) (l : Nat) (b : Bool) (i : Nat) :
    getP (setLatch w l b) i = getP w i := rfl

@[simp] theorem getP_setCell (w : World) (c : Nat) (cc : AllCell) (i : Nat) :
    getP (setCell w c cc) i = getP w i := rfl

@[simp] theorem getLatch_setP (w : World) (i : Nat) (p : PromiseObj) (L : Nat) :
    getLatch (setP w i p) L = getLatch w L := rfl

@[simp] theorem getLatch_logCall (w : World) (f a : JSVal) (L : Nat) :
    getLatch (logCall w f a) L = getLatch w L := rfl

@[simp] theorem getLatch_runInOrder (w : World) (s : Nat) (f v : JSVal) (L : Nat) :
    getLatch (runInOrder w s f v) L = getLatch w L := rfl

@[simp] theorem getLatch_setCell (w : World) (c : Nat) (cc : AllCell) (L : Nat) :
    getLatch (setCell w c cc) L = getLatch w L := rfl

@[simp] theorem log_setP (w : World) (i : Nat) (p : PromiseObj) :
    (setP w i p).log = w.log := rfl

@[simp] theorem log_setLatch (w : World) (l : Nat) (b : Bool) :
    (setLatch w l b).log = w.log := rfl

@[simp] theorem log_setCell (w : World) (c : Nat) (cc : AllCell) :
    (setCell w c cc).log = w.log := rfl

@[simp] theorem log_runInOrder (w : World) (s : Nat) (f v : JSVal) :
    (runInOrder w s f v).log = w.log := rfl

@[simp] theorem log_logCall (w : World) (f a : JSVal) :
    (logCall w f a).log = ⟨f, a⟩ :: w.log := rfl

@[simp] theorem log_pushExec (w : World) (i : Nat) (ex : Executor) :
    (pushExec w i ex).log = w.log := rfl

@[simp] theorem log_allocPromise (w : World) : (allocPromise w).1.log = w.log := rfl

/-- If a promise read does not yield the out-of-range default state, the
index is in range. -/
theorem lt_of_getP_state {w : World} {i : Nat} (h : (getP w i).state ≠ .pending) :
    i < w.promises.length := by
  by_contra hi
  have : getP w i = ⟨.pending, .undef, []⟩ := getD_oob _ _ _ (Nat.le_of_not_lt hi)
  exact h (by rw [this])

/-- A latch that reads true is in range. -/
theorem lt_of_getLatch_true {w : World} {L : Nat} (h : getLatch w L = true) :
    L < w.latches.length := by
  by_contra hi
  have : getLatch w L = false := getD_oob _ _ _ (Nat.le_of_not_lt hi)
  rw [this] at h
  exact Bool.noConfusion h

/-- Reading back a written promise. -/
theorem getP_setP_self {w : World} {i : Nat} (p : PromiseObj) (h : i < w.promises.length) :
    getP (setP w i p) i = p :=
  getD_set_self _ _ _ _ h

/-- Writing one promise leaves the others unchanged. -/
theorem getP_setP_ne {w : World} {i j : Nat} (p : PromiseObj) (h : i ≠ j) :
    getP (setP w i p) j = getP w j :=
  getD_set_ne _ _ _ _ _ h

/-- A true latch stays true under any latch write of this model (the
source only ever sets called = true). -/
theorem getLatch_setLatch_true {w : World} {L i : Nat} (h : getLatch w L = true) :
    getLatch (setLatch w i true) L = true := by
  by_cases hi : i = L
  · subst hi
    exact getD_set_self _ _ _ _ (lt_of_getLatch_true h)
  · unfold getLatch setLatch
    rw [getD_set_ne _ _ _ _ _ hi]
    exact h

/-- A true latch survives allocation of a fresh latch. -/
theorem getLatch_allocLatch_true {w : World} {L : Nat} (h : getLatch w L = true) :
    getLatch (allocLatch w).1 L = true := by
  unfold getLatch allocLatch
  rw [getD_append_left _ _ _ _ (lt_of_getLatch_true h)]
  exact h

@[simp] theorem latches_logCall (w : World) (f a : JSVal) :
    (logCall w f a).latches = w.latches := rfl

@[simp] theorem latches_setP (w : World) (i : Nat) (p : PromiseObj) :
    (setP w i p).latches = w.latches := rfl

@[simp] theorem latches_setCell (w : World) (c : Nat) (cc : AllCell) :
    (setCell w c cc).latches = w.latches := rfl

@[simp] theorem latches_runInOrder (w : World) (s : Nat) (f v : JSVal) :
    (runInOrder w s f v).latches = w.latches := rfl

@[simp] theorem latches_allocPromise (w : World) :
    (allocPromise w).1.latches = w.latches := rfl

/-- Two worlds with the same latch store read latches alike. -/
theorem getLatch_congr {w w2 : World} (h : w2.latches = w.latches) (L : Nat) :
    getLatch w2 L = getLatch w L := by
  unfold getLatch
  rw [h]

/-- then never touches the latch store. -/
theorem latches_thenImpl (w : World) (i : Nat) (f g : JSVal) :
    ((thenImpl w i f g).1).latches = w.latches := by
  unfold thenImpl
  dsimp only
  split
  · rfl
  · split <;> rfl

/-- then never touches the invocation log: registering or scheduling a
continuation invokes no handler. -/
theorem log_thenImpl (w : World) (i : Nat) (f g : JSVal) :
    ((thenImpl w i f g).1).log = w.log := by
  unfold thenImpl
  dsimp only
  split
  · rfl
  · split <;> rfl

/-- Invoking the bound then of a promise target always returns normally
(Promise.prototype.then never throws in the model). -/
theorem call2_boundThen_snd (fuel : Nat) (w : World) (t : Nat) (a b : JSVal) :
    (call2 fuel w (.fn (.boundThen t)) a b).2 = .returned .undef := by
  cases fuel <;> simp [call2]

/-- Invoking the bound then of a promise target never touches the latch
store. -/
theorem call2_boundThen_latches (fuel : Nat) (w : World) (t : Nat) (a b : JSVal) :
    ((call2 fuel w (.fn (.boundThen t)) a b).1).latches = w.latches := by
  cases fuel with
  | zero => rfl
  | succ f => simp [call2, latches_thenImpl]

/-- Invoking the bound then of a promise target only grows the log by the
invocation record itself (it runs no handler). -/
theorem call2_boundThen_log (fuel : Nat) (w : World) (t : Nat) (a b : JSVal) :
    ((call2 (Nat.succ fuel) w (.fn (.boundThen t)) a b).1).log =
      LogEntry.mk (.fn (.boundThen t)) a :: w.log := by
  simp [call2, log_thenImpl]

/-- Adoption of a promise-valued thenable: __callThen on the bound then
reduces to allocating the latch and invoking then (the catch branch is
dead because then returns normally). -/
theorem callThen_boundThen_eq (fuel : Nat) (w : World) (i t : Nat) :
    callThen (Nat.succ fuel) w i (.fn (.boundThen t)) =
      (call2 fuel (allocLatch w).1 (.fn (.boundThen t))
        (.fn (.resolveTrigger (allocLatch w).2 i)) (.fn (.rejectTrigger (allocLatch w).2 i))).1 := by
  rw [callThen]
  have hs := call2_boundThen_snd fuel (allocLatch w).1 t
    (.fn (.resolveTrigger (allocLatch w).2 i)) (.fn (.rejectTrigger (allocLatch w).2 i))
  rcases hx : call2 fuel (allocLatch w).1 (.fn (.boundThen t))
      (.fn (.resolveTrigger (allocLatch w).2 i)) (.fn (.rejectTrigger (allocLatch w).2 i))
    with ⟨w2, r⟩
  rw [hx] at hs
  simp at hs
  subst hs
  simp

/-- The settlement primitives only ever write true into latch cells, so a
true latch stays true across every function of the settlement layer. -/
theorem latch_mono : ∀ fuel : Nat,
    (∀ w i v L, getLatch w L = true → getLatch (doResolve fuel w i v) L = true) ∧
    (∀ w i e L, getLatch w L = true → getLatch (doReject fuel w i e) L = true) ∧
    (∀ w q v L, getLatch w L = true → getLatch (dispatchResolve fuel w q v) L = true) ∧
    (∀ w q e L, getLatch w L = true → getLatch (dispatchReject fuel w q e) L = true) ∧
    (∀ w ex v L, getLatch w L = true → getLatch (execResolve fuel w ex v) L = true) ∧
    (∀ w ex e L, getLatch w L = true → getLatch (execReject fuel w ex e) L = true) := by
  intro fuel
  induction fuel with
  | zero =>
    exact ⟨fun w i v L h => by simpa [doResolve] using h,
      fun w i e L h => by simpa [doReject] using h,
      fun w q v L h => by simpa [dispatchResolve] using h,
      fun w q e L h => by simpa [dispatchReject] using h,
      fun w ex v L h => by simpa [execResolve] using h,
      fun w ex e L h => by simpa [execReject] using h⟩
  | succ f ih =>
    refine ⟨?_, ?_, ?_, ?_, ?_, ?_⟩
    · intro w i v L h
      cases hv : getThen v with
      | some t =>
        simp only [doResolve, hv]
        cases f with
        | zero => simpa [callThen] using h
        | succ f2 =>
          rw [callThen_boundThen_eq]
          rw [getLatch_congr (call2_boundThen_latches _ _ _ _ _) L]
          exact getLatch_allocLatch_true h
      | none =>
        simp only [doResolve, hv]
        exact ih.2.2.1 _ _ _ _ (by simpa using h)
    · intro w i e L h
      rw [doReject]
      exact ih.2.2.2.1 _ _ _ _ (by simpa using h)
    · intro w q v L h
      cases q with
      | nil => simpa [dispatchResolve] using h
      | cons ex rest =>
        rw [dispatchResolve]
        exact ih.2.2.1 _ _ _ _ (ih.2.2.2.2.1 _ _ _ _ h)
    · intro w q e L h
      cases q with
      | nil => simpa [dispatchReject] using h
      | cons ex rest =>
        rw [dispatchReject]
        exact ih.2.2.2.1 _ _ _ _ (ih.2.2.2.2.2 _ _ _ _ h)
    · intro w ex v L h
      rw [execResolve]
      split
      · simpa using h
      · exact ih.1 _ _ _ _ h
    · intro w ex e L h
      rw [execReject]
      split
      · simpa using h
      · exact ih.2.1 _ _ _ _ h

/-- Once a promise reads rejected with reason e, every further doReject
with the same reason (the only shape dispatch ever produces) keeps it
rejected with that reason, at any fuel. -/
theorem rejected_stable (pid : Nat) (e : JSVal) : ∀ fuel : Nat,
    (∀ w j, (getP w pid).state = .rejected ∧ (getP w pid).value = e →
      (getP (doReject fuel w j e) pid).state = .rejected ∧
        (getP (doReject fuel w j e) pid).value = e) ∧
    (∀ w q, (getP w pid).state = .rejected ∧ (getP w pid).value = e →
      (getP (dispatchReject fuel w q e) pid).state = .rejected ∧
        (getP (dispatchReject fuel w q e) pid).value = e) ∧
    (∀ w ex, (getP w pid).state = .rejected ∧ (getP w pid).value = e →
      (getP (execReject fuel w ex e) pid).state = .rejected ∧
        (getP (execReject fuel w ex e) pid).value = e) := by
  intro fuel
  induction fuel with
  | zero =>
    exact ⟨fun w j h => by simpa [doReject] using h,
      fun w q h => by simpa [dispatchReject] using h,
      fun w ex h => by simpa [execReject] using h⟩
  | succ f ih =>
    have hset : ∀ (w : World) (j : Nat) (p : PromiseObj),
        p.state = .rejected → p.value = e →
        (getP w pid).state = .rejected ∧ (getP w pid).value = e →
        (getP (setP w j p) pid).state = .rejected ∧ (getP (setP w j p) pid).value = e := by
      intro w j p hs hv h
      by_cases hj : j = pid
      · subst hj
        have hlt : j < w.promises.length :=
          lt_of_getP_state (by rw [h.1]; exact fun hh => PState.noConfusion hh)
        rw [getP_setP_self _ hlt]
        exact ⟨hs, hv⟩
      · rw [getP_setP_ne _ hj]
        exact h
    refine ⟨?_, ?_, ?_⟩
    · intro w j h
      rw [doReject]
      exact ih.2.1 _ _ (hset _ _ _ rfl rfl h)
    · intro w q h
      cases q with
      | nil => simpa [dispatchReject] using h
      | cons ex rest =>
        rw [dispatchReject]
        exact ih.2.1 _ _ (ih.2.2 _ _ h)
    · intro w ex h
      rw [execReject]
      split
      · simpa using h
      · exact ih.1 _ _ h

/-- Once a promise reads fulfilled with a non-thenable value v, every
further doResolve with that same value keeps it fulfilled with that
value, at any fuel. -/
theorem fulfilled_stable (pid : Nat) (v : JSVal) (hv : getThen v = none) : ∀ fuel : Nat,
    (∀ w j, (getP w pid).state = .fulfilled ∧ (getP w pid).value = v →
      (getP (doResolve fuel w j v) pid).state = .fulfilled ∧
        (getP (doResolve fuel w j v) pid).value = v) ∧
    (∀ w q, (getP w pid).state = .fulfilled ∧ (getP w pid).value = v →
      (getP (dispatchResolve fuel w q v) pid).state = .fulfilled ∧
        (getP (dispatchResolve fuel w q v) pid).value = v) ∧
    (∀ w ex, (getP w pid).state = .fulfilled ∧ (getP w pid).value = v →
      (getP (execResolve fuel w ex v) pid).state = .fulfilled ∧
        (getP (execResolve fuel w ex v) pid).value = v) := by
  intro fuel
  induction fuel with
  | zero =>
    exact ⟨fun w j h => by simpa [doResolve] using h,
      fun w q h => by simpa [dispatchResolve] using h,
      fun w ex h => by simpa [execResolve] using h⟩
  | succ f ih =>
    have hset : ∀ (w : World) (j : Nat) (p : PromiseObj),
        p.state = .fulfilled → p.value = v →
        (getP w pid).state = .fulfilled ∧ (getP w pid).value = v →
        (getP (setP w j p) pid).state = .fulfilled ∧ (getP (setP w j p) pid).value = v := by
      intro w j p hs hvv h
      by_cases hj : j = pid
      · subst hj
        have hlt : j < w.promises.length :=
          lt_of_getP_state (by rw [h.1]; exact fun hh => PState.noConfusion hh)
        rw [getP_setP_self _ hlt]
        exact ⟨hs, hvv⟩
      · rw [getP_setP_ne _ hj]
        exact h
    refine ⟨?_, ?_, ?_⟩
    · intro w j h
      rw [doResolve]
      rw [hv]
      exact ih.2.1 _ _ (hset _ _ _ rfl rfl h)
    · intro w q h
      cases q with
      | nil => simpa [dispatchResolve] using h
      | cons ex rest =>
        rw [dispatchResolve]
        exact ih.2.1 _ _ (ih.2.2 _ _ h)
    · intro w ex h
      rw [execResolve]
      split
      · simpa using h
      · exact ih.1 _ _ h

/-- Settlement never invokes a handler synchronously: doReject leaves the
invocation log unchanged at any fuel, and so does doResolve of a
non-thenable value; every callable handler in the queue is deferred
through __runInOrder instead. -/
theorem settle_log_pres : ∀ fuel : Nat,
    (∀ w j e, (doReject fuel w j e).log = w.log) ∧
    (∀ w q e, (dispatchReject fuel w q e).log = w.log) ∧
    (∀ w ex e, (execReject fuel w ex e).log = w.log) ∧
    (∀ w j v, getThen v = none → (doResolve fuel w j v).log = w.log) ∧
    (∀ w q v, getThen v = none → (dispatchResolve fuel w q v).log = w.log) ∧
    (∀ w ex v, getThen v = none → (execResolve fuel w ex v).log = w.log) := by
  intro fuel
  induction fuel with
  | zero =>
    exact ⟨fun w j e => by simp [doReject], fun w q e => by simp [dispatchReject],
      fun w ex e => by simp [execReject], fun w j v _ => by simp [doResolve],
      fun w q v _ => by simp [dispatchResolve], fun w ex v _ => by simp [execResolve]⟩
  | succ f ih =>
    refine ⟨?_, ?_, ?_, ?_, ?_, ?_⟩
    · intro w j e
      rw [doReject]
      rw [ih.2.1]
      simp
    · intro w q e
      cases q with
      | nil => simp [dispatchReject]
      | cons ex rest =>
        rw [dispatchReject]
        rw [ih.2.1, ih.2.2.1]
    · intro w ex e
      rw [execReject]
      split
      · simp
      · exact ih.1 _ _ _
    · intro w j v hv
      rw [doResolve]
      rw [hv]
      rw [ih.2.2.2.2.1 _ _ _ hv]
      simp
    · intro w q v hv
      cases q with
      | nil => simp [dispatchResolve]
      | cons ex rest =>
        rw [dispatchResolve]
        rw [ih.2.2.2.2.1 _ _ _ hv, ih.2.2.2.2.2 _ _ _ hv]
    · intro w ex v hv
      rw [execResolve]
      split
      · simp
      · exact ih.2.2.2.1 _ _ _ hv

/-- Writing a promise never changes the number of promises. -/
theorem length_setP (w : World) (i : Nat) (p : PromiseObj) :
    (setP w i p).promises.length = w.promises.length := by
  simp [setP]

/-- Dispatch over an empty waiter queue does nothing, at any fuel. -/
@[simp] theorem dispatchReject_nil (fuel : Nat) (w : World) (e : JSVal) :
    dispatchReject fuel w [] e = w := by
  cases fuel <;> simp [dispatchReject]

/-- Dispatch over an empty waiter queue does nothing, at any fuel. -/
@[simp] theorem dispatchResolve_nil (fuel : Nat) (w : World) (v : JSVal) :
    dispatchResolve fuel w [] v = w := by
  cases fuel <;> simp [dispatchResolve]

/-- A world with no queued tasks is quiescent for one step. -/
theorem stepTask_nil {w : World} (h : w.tasks = []) (fuel : Nat) : stepTask fuel w = w := by
  unfold stepTask
  rw [h]

/-- A world with no queued tasks is quiescent forever. -/
theorem drain_nil {w : World} (h : w.tasks = []) (fuel : Nat) :
    ∀ n, drain fuel n w = w := by
  intro n
  induction n with
  | zero => rfl
  | succ k ihk =>
    rw [drain, stepTask_nil h, ihk]

/-! Claim C1. -/

/-- Fixture for claim C1: a store holding one already fulfilled promise
and one already rejected promise, both with empty waiter queues. -/
def c1World : World :=
  ⟨[⟨.fulfilled, .num 1, []⟩, ⟨.rejected, .str "r", []⟩], [], [], [], []⟩

/-- Claim C1 counterexample: the internal settle primitives are not
no-ops on an already settled Settlement.  doReject turns the fulfilled
promise 0 into a rejected one with the new reason, and doResolve turns
the rejected promise 1 back into a fulfilled one with the new value, so
a FULFILLED to REJECTED transition (and the reverse) does happen. -/
theorem c1_counterexample :
    ((getP (doReject 2 c1World 0 (.str "boom")) 0).state = .rejected ∧
      (getP (doReject 2 c1World 0 (.str "boom")) 0).state ≠ .fulfilled ∧
      (getP (doReject 2 c1World 0 (.str "boom")) 0).value = .str "boom") ∧
    ((getP (doResolve 2 c1World 1 (.num 5)) 1).state = .fulfilled ∧
      (getP (doResolve 2 c1World 1 (.num 5)) 1).state ≠ .rejected ∧
      (getP (doResolve 2 c1World 1 (.num 5)) 1).value = .num 5) :=
  ⟨⟨rfl, fun h => PState.noConfusion h, rfl⟩, ⟨rfl, fun h => PState.noConfusion h, rfl⟩⟩

/-- Claim C1 amended: doResolve and doReject check no status at all.
For every promise in range and any prior status, doReject sets the
status to REJECTED and stores the reason, and doResolve of a
non-thenable value sets the status to FULFILLED and stores the value;
exactly-once settlement is enforced only by the first-call-wins latch of
__callThen, not inside these primitives. -/
theorem c1_settle_primitives_unguarded (fuel : Nat) (w : World) (id : Nat) (e v : JSVal)
    (hid : id < w.promises.length) (hv : getThen v = none) :
    ((getP (doReject (fuel + 1) w id e) id).state = .rejected ∧
      (getP (doReject (fuel + 1) w id e) id).value = e) ∧
    ((getP (doResolve (fuel + 1) w id v) id).state = .fulfilled ∧
      (getP (doResolve (fuel + 1) w id v) id).value = v) := by
  constructor
  · rw [doReject]
    apply (rejected_stable id e fuel).2.1
    rw [getP_setP_self _ hid]
    exact ⟨rfl, rfl⟩
  · rw [doResolve]
    rw [hv]
    apply (fulfilled_stable id v hv fuel).2.1
    rw [getP_setP_self _ hid]
    exact ⟨rfl, rfl⟩

/-- Witness for the amended claim C1 at a concrete input. -/
theorem c1_settle_primitives_unguarded_witness :
    0 < c1World.promises.length ∧ getThen (.num 5) = none ∧
    ((getP (doReject 3 c1World 0 (.str "boom")) 0).state = .rejected ∧
      (getP (doReject 3 c1World 0 (.str "boom")) 0).value = .str "boom") ∧
    ((getP (doResolve 3 c1World 0 (.num 5)) 0).state = .fulfilled ∧
      (getP (doResolve 3 c1World 0 (.num 5)) 0).value = .num 5) :=
  ⟨by decide, rfl,
    c1_settle_primitives_unguarded 2 c1World 0 (.str "boom") (.num 5) (by decide) rfl⟩

/-! Claim C3. -/

/-- Promise.all applied to the empty array, from the empty world. -/
def c3Run : World × Nat := promiseAll 2 emptyWorld (.arr [])

/-- Claim C3 (the code defect): all of the empty array returns a
Settlement that is still PENDING, with no scheduled task and a world
that is quiescent forever, so it never fulfills with the empty sequence:
countDone is only compared against the length inside the per-item
handlers, and with no items no handler ever runs. -/
theorem c3_all_empty_never_settles :
    (getP c3Run.1 c3Run.2).state = .pending ∧
    (getP c3Run.1 c3Run.2).state ≠ .fulfilled ∧
    c3Run.1.tasks = [] ∧
    (∀ fuel n, drain fuel n c3Run.1 = c3Run.1) :=
  ⟨rfl, fun h => PState.noConfusion h, rfl, fun fuel n => drain_nil rfl fuel n⟩

/-! Claim C5. -/

/-- Claim C5: a non-callable resolver makes construction fail
synchronously with a type error and no Settlement is produced (the
constructor returns no world at all), while a callable resolver always
constructs successfully, and the fresh Settlement is in the PENDING
state at the moment the resolver is invoked (the field initialization
precedes __callThen). -/
theorem c5_ctor_resolver_guard (fuel : Nat) (w : World) (r : JSVal) :
    (isFunction r = false →
      promiseCtor fuel w r = .error (.typeError "resolver must be a function")) ∧
    (isFunction r = true →
      (∃ w2, promiseCtor fuel w r = .ok (w2, w.promises.length)) ∧
      (getP (allocPromise w).1 w.promises.length).state = .pending) := by
  constructor
  · intro h
    unfold promiseCtor
    rw [h]
    simp
  · intro h
    constructor
    · unfold promiseCtor
      rw [h]
      by_cases hn : isNoop r
      · rw [if_pos rfl, if_pos hn]
        exact ⟨_, rfl⟩
      · rw [if_pos rfl, if_neg hn]
        exact ⟨_, rfl⟩
    · show ((allocPromise w).1.promises.getD w.promises.length _).state = _
      unfold allocPromise
      rw [getD_append_len]
      rfl

/-- Witness for claim C5 at concrete inputs: the number 3 is rejected as
a resolver, and util.noop is accepted. -/
theorem c5_ctor_resolver_guard_witness :
    (isFunction (.num 3) = false ∧
      promiseCtor 2 emptyWorld (.num 3) = .error (.typeError "resolver must be a function")) ∧
    (isFunction (.fn .noop) = true ∧
      (∃ w2, promiseCtor 2 emptyWorld (.fn .noop) = .ok (w2, emptyWorld.promises.length)) ∧
      (getP (allocPromise emptyWorld).1 emptyWorld.promises.length).state = .pending) :=
  ⟨⟨rfl, (c5_ctor_resolver_guard 2 emptyWorld (.num 3)).1 rfl⟩,
    ⟨rfl, (c5_ctor_resolver_guard 2 emptyWorld (.fn .noop)).2 rfl⟩⟩

/-! Claim C2. -/

/-- Fixture for claim C2: three already settled input promises (one
fulfilled with v, two rejected with e1 and e2) and Promise.all applied
to the array of the three references.  The aggregate promise gets
reference 3; the per-item continuations get references 4, 5, 6 and the
three dispatch tasks are queued in item order. -/
def c2Setup (v e1 e2 : JSVal) : World × Nat :=
  let a1 := addSettled emptyWorld .fulfilled v
  let a2 := addSettled a1.1 .rejected e1
  let a3 := addSettled a2.1 .rejected e2
  promiseAll 4 a3.1 (.arr [.promiseRef a1.2, .promiseRef a2.2, .promiseRef a3.2])

/-- Abbreviation for the worlds of the C2 scenario: seven promises, one
Promise.all cell, some tasks and a log. -/
def c2W (p0 p1 p2 p3 p4 p5 p6 : PromiseObj) (c : AllCell)
    (ts : List STask) (lg : List LogEntry) : World :=
  ⟨[p0, p1, p2, p3, p4, p5, p6], [], [c], ts, lg⟩

/-- The C2 scenario after the synchronous phase of Promise.all: the
aggregate (3) is pending, the cell counts zero and the three handler
dispatches are queued. -/
theorem c2_setup_eq (v e1 e2 : JSVal) :
    c2Setup v e1 e2 =
      (c2W ⟨.fulfilled, v, []⟩ ⟨.rejected, e1, []⟩ ⟨.rejected, e2, []⟩
        ⟨.pending, .num 0, []⟩ ⟨.pending, .num 0, []⟩ ⟨.pending, .num 0, []⟩
        ⟨.pending, .num 0, []⟩
        ⟨0, 3, [.undef, .undef, .undef]⟩
        [⟨4, .fn (.allResolved 0 3 0), v⟩, ⟨5, .fn (.allRejected 3), e1⟩,
          ⟨6, .fn (.allRejected 3), e2⟩]
        [], 3) := by
  simp [c2Setup, promiseAll, allForEach, promiseResolveStatic, thenImpl, addSettled,
    emptyWorld, allocPromise, allocCell, getP, setP, isFunction, runInOrder, pushExec,
    c2W, List.getD]

/-- First task of the C2 scenario: the success handler of item 0 stores
v, counts one of three, and its continuation fulfills with undefined. -/
theorem c2_step1_eq (v e1 e2 : JSVal) :
    stepTask 4 (c2Setup v e1 e2).1 =
      c2W ⟨.fulfilled, v, []⟩ ⟨.rejected, e1, []⟩ ⟨.rejected, e2, []⟩
        ⟨.pending, .num 0, []⟩ ⟨.fulfilled, .undef, []⟩ ⟨.pending, .num 0, []⟩
        ⟨.pending, .num 0, []⟩
        ⟨1, 3, [v, .undef, .undef]⟩
        [⟨5, .fn (.allRejected 3), e1⟩, ⟨6, .fn (.allRejected 3), e2⟩]
        [⟨.fn (.allResolved 0 3 0), v⟩] := by
  rw [c2_setup_eq]
  simp [stepTask, runTask, call2, doResolve, doReject, dispatchResolve, dispatchReject,
    execResolve, execReject, getThen, retEqSelf, logCall, getCell, setCell, getP, setP,
    c2W, List.getD, List.set]

/-- Second task of the C2 scenario: the failure handler of item 1
rejects the aggregate with e1. -/
theorem c2_step2_eq (v e1 e2 : JSVal) :
    stepTask 4 (stepTask 4 (c2Setup v e1 e2).1) =
      c2W ⟨.fulfilled, v, []⟩ ⟨.rejected, e1, []⟩ ⟨.rejected, e2, []⟩
        ⟨.rejected, e1, []⟩ ⟨.fulfilled, .undef, []⟩ ⟨.fulfilled, .undef, []⟩
        ⟨.pending, .num 0, []⟩
        ⟨1, 3, [v, .undef, .undef]⟩
        [⟨6, .fn (.allRejected 3), e2⟩]
        [⟨.fn (.allRejected 3), e1⟩, ⟨.fn (.allResolved 0 3 0), v⟩] := by
  rw [c2_step1_eq]
  simp [stepTask, runTask, call2, doResolve, doReject, dispatchResolve, dispatchReject,
    execResolve, execReject, getThen, retEqSelf, logCall, getCell, setCell, getP, setP,
    c2W, List.getD, List.set]

/-- Third task of the C2 scenario: the failure handler of item 2 runs
doReject on the already rejected aggregate and overwrites the stored
reason with e2. -/
theorem c2_step3_eq (v e1 e2 : JSVal) :
    stepTask 4 (stepTask 4 (stepTask 4 (c2Setup v e1 e2).1)) =
      c2W ⟨.fulfilled, v, []⟩ ⟨.rejected, e1, []⟩ ⟨.rejected, e2, []⟩
        ⟨.rejected, e2, []⟩ ⟨.fulfilled, .undef, []⟩ ⟨.fulfilled, .undef, []⟩
        ⟨.fulfilled, .undef, []⟩
        ⟨1, 3, [v, .undef, .undef]⟩
        []
        [⟨.fn (.allRejected 3), e2⟩, ⟨.fn (.allRejected 3), e1⟩,
          ⟨.fn (.allResolved 0 3 0), v⟩] := by
  rw [c2_step2_eq]
  simp [stepTask, runTask, call2, doResolve, doReject, dispatchResolve, dispatchReject,
    execResolve, execReject, getThen, retEqSelf, logCall, getCell, setCell, getP, setP,
    c2W, List.getD, List.set]

/-- Claim C2 counterexample: with input [fulfilled 1, rejected x,
rejected y], running all three scheduled handlers leaves the aggregate
rejected with the SECOND failure reason y, not the first reason x, so
the later failure did affect the already-rejected aggregate. -/
theorem c2_counterexample :
    (getP (drain 4 3 (c2Setup (.num 1) (.str "x") (.str "y")).1) 3).state = .rejected ∧
    (getP (drain 4 3 (c2Setup (.num 1) (.str "x") (.str "y")).1) 3).value = .str "y" ∧
    (getP (drain 4 3 (c2Setup (.num 1) (.str "x") (.str "y")).1) 3).value ≠ .str "x" := by
  refine ⟨rfl, rfl, ?_⟩
  intro h
  have h2 : "y" = "x" := by
    have h3 : JSVal.str "y" = JSVal.str "x" := h
    injection h3
  exact absurd h2 (by decide)

/-- Claim C2 amended: when some item rejects, the aggregate does end up
REJECTED and later successes cannot re-fulfill it (the completion
counter stops below the length), but the stored failure reason is NOT
the first one: every later failure runs doReject again and overwrites
the value, so the last failure reason wins.  Shown for the items
[fulfilled v, rejected e1, rejected e2] for arbitrary values: the
aggregate ends rejected with e2 and the counter ends at 1 of 3. -/
theorem c2_all_last_failure_wins (v e1 e2 : JSVal) :
    (getP (drain 4 3 (c2Setup v e1 e2).1) 3).state = .rejected ∧
    (getP (drain 4 3 (c2Setup v e1 e2).1) 3).value = e2 ∧
    (getCell (drain 4 3 (c2Setup v e1 e2).1) 0).countDone = 1 ∧
    (getCell (drain 4 3 (c2Setup v e1 e2).1) 0).len = 3 ∧
    (drain 4 3 (c2Setup v e1 e2).1).tasks = [] := by
  have h : drain 4 3 (c2Setup v e1 e2).1 =
      stepTask 4 (stepTask 4 (stepTask 4 (c2Setup v e1 e2).1)) := rfl
  rw [h, c2_step3_eq]
  exact ⟨rfl, rfl, rfl, rfl, rfl⟩

/-! Claim C10. -/

/-- Claim C10: for every argument without ordered iteration (anything
that is not an array), Promise.race does not throw synchronously: the
constructor call succeeds (first conjunct), and the returned Settlement
is rejected with the type error thrown while iterating inside the
resolver, because __callThen converts the throw into a rejection.  By
contrast, Promise.all checks isArray explicitly and rejects with its own
type error message. -/
theorem c10_race_noniterable (g : Nat) (v : JSVal) (hv : isArr v = false) :
    (promiseCtor (g + 2) emptyWorld (.fn (.raceResolver v)) =
      .ok (promiseRace (g + 2) emptyWorld v)) ∧
    ((getP (promiseRace (g + 2) emptyWorld v).1 0).state = .rejected ∧
      (getP (promiseRace (g + 2) emptyWorld v).1 0).value =
        .typeError "values.forEach is not a function") ∧
    ((getP (promiseAll (g + 1) emptyWorld v).1 0).state = .rejected ∧
      (getP (promiseAll (g + 1) emptyWorld v).1 0).value =
        .typeError "argument must be an array.") := by
  refine ⟨rfl, ?_, ?_⟩
  · cases v <;> simp_all [promiseRace, callThen, call2, doReject, allocPromise,
      allocLatch, emptyWorld, getLatch, setLatch, logCall, getP, setP, isArr, List.getD]
  · cases v <;> simp_all [promiseAll, doReject, allocPromise, allocCell,
      emptyWorld, getP, setP, isArr, List.getD]

/-- Witness for claim C10 at the concrete non-iterable input 5. -/
theorem c10_race_noniterable_witness :
    isArr (.num 5) = false ∧
    (promiseCtor 2 emptyWorld (.fn (.raceResolver (.num 5))) =
      .ok (promiseRace 2 emptyWorld (.num 5))) ∧
    ((getP (promiseRace 2 emptyWorld (.num 5)).1 0).state = .rejected ∧
      (getP (promiseRace 2 emptyWorld (.num 5)).1 0).value =
        .typeError "values.forEach is not a function") ∧
    ((getP (promiseAll 1 emptyWorld (.num 5)).1 0).state = .rejected ∧
      (getP (promiseAll 1 emptyWorld (.num 5)).1 0).value =
        .typeError "argument must be an array.") :=
  ⟨rfl, c10_race_noniterable 0 (.num 5) rfl⟩

/-! Claim C7. -/

/-- Fixture: a single pending promise with an empty waiter queue. -/
def pendingWorld : World := ⟨[⟨.pending, .num 0, []⟩], [], [], [], []⟩

/-- Claim C7: then on a PENDING receiver always allocates a fresh
downstream Settlement (the next free reference, distinct from the
receiver) and appends the Continuation record to the waiter queue; on a
settled receiver whose matching handler is not callable it returns the
receiver itself with the world unchanged; on a settled receiver whose
matching handler is callable it allocates a fresh downstream Settlement
and schedules the dispatch task. -/
theorem c7_then_allocation (w : World) (id : Nat) (f g : JSVal)
    (hid : id < w.promises.length) :
    ((getP w id).state = .pending →
      (thenImpl w id f g).2 = w.promises.length ∧
      (thenImpl w id f g).2 ≠ id ∧
      ((thenImpl w id f g).1).promises.length = w.promises.length + 1 ∧
      (getP (thenImpl w id f g).1 id).queue =
        (getP w id).queue ++ [⟨w.promises.length, f, g⟩] ∧
      (getP (thenImpl w id f g).1 (thenImpl w id f g).2).state = .pending) ∧
    ((getP w id).state = .fulfilled → isFunction f = false → thenImpl w id f g = (w, id)) ∧
    ((getP w id).state = .rejected → isFunction g = false → thenImpl w id f g = (w, id)) ∧
    ((getP w id).state = .fulfilled → isFunction f = true →
      (thenImpl w id f g).2 = w.promises.length ∧
      ((thenImpl w id f g).1).promises.length = w.promises.length + 1 ∧
      ((thenImpl w id f g).1).tasks =
        w.tasks ++ [⟨w.promises.length, f, (getP w id).value⟩]) ∧
    ((getP w id).state = .rejected → isFunction g = true →
      (thenImpl w id f g).2 = w.promises.length ∧
      ((thenImpl w id f g).1).promises.length = w.promises.length + 1 ∧
      ((thenImpl w id f g).1).tasks =
        w.tasks ++ [⟨w.promises.length, g, (getP w id).value⟩]) := by
  refine ⟨?_, ?_, ?_, ?_, ?_⟩
  · intro hp
    have hcond : ((!isFunction f && (PState.pending == PState.fulfilled))
        || (!isFunction g && (PState.pending == PState.rejected))) = false := by simp
    have hthen : thenImpl w id f g =
        (pushExec (allocPromise w).1 id ⟨w.promises.length, f, g⟩, w.promises.length) := by
      simp only [thenImpl, hp, hcond, pstate_beq_pp, Bool.false_eq_true, if_false, if_true,
        allocPromise]
    rw [hthen]
    refine ⟨rfl, Nat.ne_of_gt hid, ?_, ?_, ?_⟩
    · simp [pushExec, setP, allocPromise]
    · unfold pushExec
      rw [getP_setP_self _ (by simp [allocPromise]; exact Nat.lt_succ_of_lt hid)]
      have h2 : getP (allocPromise w).1 id = getP w id := by
        unfold getP allocPromise
        exact getD_append_left _ _ _ _ hid
      rw [h2]
    · unfold pushExec
      rw [getP_setP_ne _ (Nat.ne_of_lt hid)]
      unfold getP allocPromise
      rw [getD_append_len]
      rfl
  · intro hs hf
    simp [thenImpl, hs, hf]
  · intro hs hg
    simp [thenImpl, hs, hg]
  · intro hs hf
    have hthen : thenImpl w id f g =
        (runInOrder (allocPromise w).1 w.promises.length f (getP w id).value,
          w.promises.length) := by
      simp only [thenImpl, hs, hf, pstate_beq_ff, pstate_beq_fp, pstate_beq_fr, Bool.not_true,
        Bool.false_and, Bool.or_false, Bool.false_or, Bool.false_eq_true, if_false, if_true,
        allocPromise, Bool.and_false]
    rw [hthen]
    exact ⟨rfl, by simp [runInOrder, allocPromise], rfl⟩
  · intro hs hg
    have hthen : thenImpl w id f g =
        (runInOrder (allocPromise w).1 w.promises.length g (getP w id).value,
          w.promises.length) := by
      simp only [thenImpl, hs, hg, pstate_beq_rr, pstate_beq_rp, pstate_beq_rf, Bool.not_true,
        Bool.false_and, Bool.or_false, Bool.false_or, Bool.false_eq_true, if_false, if_true,
        allocPromise, Bool.and_false]
    rw [hthen]
    exact ⟨rfl, by simp [runInOrder, allocPromise], rfl⟩

/-- Witness for claim C7 at concrete inputs, covering the pending case,
the settled early-return case and the settled scheduling case. -/
theorem c7_then_allocation_witness :
    (0 < pendingWorld.promises.length ∧ (getP pendingWorld 0).state = .pending ∧
      (thenImpl pendingWorld 0 (.fn .noop) .undef).2 = pendingWorld.promises.length ∧
      (thenImpl pendingWorld 0 (.fn .noop) .undef).2 ≠ 0 ∧
      ((thenImpl pendingWorld 0 (.fn .noop) .undef).1).promises.length =
        pendingWorld.promises.length + 1 ∧
      (getP (thenImpl pendingWorld 0 (.fn .noop) .undef).1 0).queue =
        (getP pendingWorld 0).queue ++ [⟨pendingWorld.promises.length, .fn .noop, .undef⟩] ∧
      (getP (thenImpl pendingWorld 0 (.fn .noop) .undef).1
        (thenImpl pendingWorld 0 (.fn .noop) .undef).2).state = .pending) ∧
    (0 < c1World.promises.length ∧ (getP c1World 0).state = .fulfilled ∧
      isFunction (JSVal.undef) = false ∧
      thenImpl c1World 0 .undef .undef = (c1World, 0)) ∧
    (1 < c1World.promises.length ∧ (getP c1World 1).state = .rejected ∧
      isFunction (JSVal.fn .noop) = true ∧
      (thenImpl c1World 1 .undef (.fn .noop)).2 = c1World.promises.length ∧
      ((thenImpl c1World 1 .undef (.fn .noop)).1).promises.length =
        c1World.promises.length + 1 ∧
      ((thenImpl c1World 1 .undef (.fn .noop)).1).tasks =
        c1World.tasks ++ [⟨c1World.promises.length, .fn .noop, (getP c1World 1).value⟩]) :=
  ⟨⟨by decide, rfl,
      (c7_then_allocation pendingWorld 0 (.fn .noop) .undef (by decide)).1 rfl⟩,
    ⟨by decide, rfl, rfl,
      (c7_then_allocation c1World 0 .undef .undef (by decide)).2.1 rfl rfl⟩,
    ⟨by decide, rfl, rfl,
      (c7_then_allocation c1World 1 .undef (.fn .noop) (by decide)).2.2.2.2 rfl rfl⟩⟩

/-! Claim C8. -/

/-- List.set beyond the length is the identity. -/
theorem set_oob {α : Type} : ∀ (l : List α) (i : Nat) (a : α), l.length ≤ i → l.set i a = l
  | [], _, _, _ => rfl
  | _ :: _, 0, _, h => absurd h (Nat.not_succ_le_zero _)
  | x :: xs, i + 1, a, h => by
    show x :: xs.set i a = x :: xs
    rw [set_oob xs i a (Nat.le_of_succ_le_succ h)]

/-- Rewriting only the state and value of one promise changes no waiter
queue. -/
theorem getP_set_keep_queue (w : World) (j : Nat) (st : PState) (vv : JSVal) (i : Nat) :
    (getP (setP w j ⟨st, vv, (getP w j).queue⟩) i).queue = (getP w i).queue := by
  by_cases hij : j = i
  · subst hij
    by_cases hj : j < w.promises.length
    · rw [getP_setP_self _ hj]
    · unfold setP
      rw [set_oob _ _ _ (Nat.le_of_not_lt hj)]
  · rw [getP_setP_ne _ hij]

/-- The rejection flow only rewrites states and values: it touches no
waiter queue and allocates no promise, at any fuel. -/
theorem reject_flow_pres : ∀ fuel : Nat,
    (∀ w j e i, (getP (doReject fuel w j e) i).queue = (getP w i).queue ∧
      (doReject fuel w j e).promises.length = w.promises.length) ∧
    (∀ w q e i, (getP (dispatchReject fuel w q e) i).queue = (getP w i).queue ∧
      (dispatchReject fuel w q e).promises.length = w.promises.length) ∧
    (∀ w ex e i, (getP (execReject fuel w ex e) i).queue = (getP w i).queue ∧
      (execReject fuel w ex e).promises.length = w.promises.length) := by
  intro fuel
  induction fuel with
  | zero =>
    exact ⟨fun w j e i => by simp [doReject], fun w q e i => by simp [dispatchReject],
      fun w ex e i => by simp [execReject]⟩
  | succ f ih =>
    refine ⟨?_, ?_, ?_⟩
    · intro w j e i
      rw [doReject]
      constructor
      · rw [(ih.2.1 _ _ _ _).1]
        exact getP_set_keep_queue w j .rejected e i
      · rw [(ih.2.1 _ _ _ 0).2, length_setP]
    · intro w q e i
      cases q with
      | nil => simp [dispatchReject]
      | cons ex rest =>
        rw [dispatchReject]
        constructor
        · rw [(ih.2.1 _ _ _ _).1, (ih.2.2 _ _ _ _).1]
        · rw [(ih.2.1 _ _ _ 0).2, (ih.2.2 _ _ _ 0).2]
    · intro w ex e i
      rw [execReject]
      split
      · exact ⟨rfl, rfl⟩
      · exact ih.1 _ _ _ _

/-- The fulfillment flow for a non-thenable value only rewrites states
and values: it touches no waiter queue and allocates no promise, at any
fuel. -/
theorem resolve_flow_pres (v : JSVal) (hv : getThen v = none) : ∀ fuel : Nat,
    (∀ w j i, (getP (doResolve fuel w j v) i).queue = (getP w i).queue ∧
      (doResolve fuel w j v).promises.length = w.promises.length) ∧
    (∀ w q i, (getP (dispatchResolve fuel w q v) i).queue = (getP w i).queue ∧
      (dispatchResolve fuel w q v).promises.length = w.promises.length) ∧
    (∀ w ex i, (getP (execResolve fuel w ex v) i).queue = (getP w i).queue ∧
      (execResolve fuel w ex v).promises.length = w.promises.length) := by
  intro fuel
  induction fuel with
  | zero =>
    exact ⟨fun w j i => by simp [doResolve], fun w q i => by simp [dispatchResolve],
      fun w ex i => by simp [execResolve]⟩
  | succ f ih =>
    refine ⟨?_, ?_, ?_⟩
    · intro w j i
      simp only [doResolve, hv]
      constructor
      · rw [(ih.2.1 _ _ _).1]
        exact getP_set_keep_queue w j .fulfilled v i
      · rw [(ih.2.1 _ _ 0).2, length_setP]
    · intro w q i
      cases q with
      | nil => simp [dispatchResolve]
      | cons ex rest =>
        rw [dispatchResolve]
        constructor
        · rw [(ih.2.1 _ _ _).1, (ih.2.2 _ _ _).1]
        · rw [(ih.2.1 _ _ 0).2, (ih.2.2 _ _ 0).2]
    · intro w ex i
      rw [execResolve]
      split
      · exact ⟨rfl, rfl⟩
      · exact ih.1 _ _ _

/-- Dispatching a rejection over a queue whose last Executor carries a
non-callable failure handler rejects that Executor's downstream promise
with the dispatched reason, whatever the earlier Executors in the queue
do. -/
theorem dispatchReject_last (e : JSVal) (p2 : Nat) (f2 g2 : JSVal)
    (hg : isFunction g2 = false) :
    ∀ (q : List Executor) (fuel : Nat) (w : World),
    p2 < w.promises.length → (getP w p2).queue = [] →
    ((getP (dispatchReject (q.length + fuel + 3) w (q ++ [⟨p2, f2, g2⟩]) e) p2).state
        = .rejected ∧
      (getP (dispatchReject (q.length + fuel + 3) w (q ++ [⟨p2, f2, g2⟩]) e) p2).value
        = e) := by
  intro q
  induction q with
  | nil =>
    intro fuel w hlt hq
    rw [List.nil_append]
    rw [dispatchReject]
    rw [execReject]
    rw [hg]
    simp only [Bool.false_eq_true, if_false]
    rw [doReject]
    rw [hq]
    rw [dispatchReject_nil, dispatchReject_nil]
    rw [getP_setP_self _ hlt]
    exact ⟨rfl, rfl⟩
  | cons ex0 q2 ihq =>
    intro fuel w hlt hq
    have harith : (ex0 :: q2).length + fuel + 3 = (q2.length + fuel + 3) + 1 := by
      simp [List.length_cons]
      omega
    rw [harith, List.cons_append]
    rw [dispatchReject]
    exact ihq fuel (execReject (q2.length + fuel + 3) w ex0 e)
      (by rw [(reject_flow_pres _).2.2 _ _ _ p2 |>.2]; exact hlt)
      (by rw [(reject_flow_pres _).2.2 _ _ _ p2 |>.1]; exact hq)

/-- Dispatching a fulfillment over a queue whose last Executor carries a
non-callable success handler fulfills that Executor's downstream promise
with the dispatched non-thenable value, whatever the earlier Executors
in the queue do. -/
theorem dispatchResolve_last (v : JSVal) (hv : getThen v = none) (p2 : Nat) (f2 g2 : JSVal)
    (hf : isFunction f2 = false) :
    ∀ (q : List Executor) (fuel : Nat) (w : World),
    p2 < w.promises.length → (getP w p2).queue = [] →
    ((getP (dispatchResolve (q.length + fuel + 3) w (q ++ [⟨p2, f2, g2⟩]) v) p2).state
        = .fulfilled ∧
      (getP (dispatchResolve (q.length + fuel + 3) w (q ++ [⟨p2, f2, g2⟩]) v) p2).value
        = v) := by
  intro q
  induction q with
  | nil =>
    intro fuel w hlt hq
    rw [List.nil_append]
    rw [dispatchResolve]
    rw [execResolve]
    rw [hf]
    simp only [Bool.false_eq_true, if_false]
    simp only [doResolve, hv]
    rw [hq]
    rw [dispatchResolve_nil, dispatchResolve_nil]
    rw [getP_setP_self _ hlt]
    exact ⟨rfl, rfl⟩
  | cons ex0 q2 ihq =>
    intro fuel w hlt hq
    have harith : (ex0 :: q2).length + fuel + 3 = (q2.length + fuel + 3) + 1 := by
      simp [List.length_cons]
      omega
    rw [harith, List.cons_append]
    rw [dispatchResolve]
    exact ihq fuel (execResolve (q2.length + fuel + 3) w ex0 v)
      (by rw [(resolve_flow_pres v hv _).2.2 _ _ p2 |>.2]; exact hlt)
      (by rw [(resolve_flow_pres v hv _).2.2 _ _ p2 |>.1]; exact hq)

/-- Claim C8: missing-handler pass-through.  For every pending
Settlement — whatever other waiters it already has and whatever the
other handler is — registering then creates the downstream Settlement at
the next free reference, and when the receiver later settles, a missing
matching handler passes the outcome through unchanged: if onRejected is
not callable, doReject of reason e makes the downstream Settlement
REJECTED with the same e (whatever onFulfilled is); if onResolved is not
callable, doResolve of a non-thenable value v makes it FULFILLED with
the same v (whatever onRejected is). -/
theorem c8_missing_handler_passthrough (fuel : Nat) (w : World) (id : Nat) (f g v e : JSVal)
    (hid : id < w.promises.length) (hp : (getP w id).state = .pending) :
    (isFunction g = false →
      ((getP (doReject ((getP w id).queue.length + fuel + 4) (thenImpl w id f g).1 id e)
          w.promises.length).state = .rejected ∧
        (getP (doReject ((getP w id).queue.length + fuel + 4) (thenImpl w id f g).1 id e)
          w.promises.length).value = e)) ∧
    (isFunction f = false → getThen v = none →
      ((getP (doResolve ((getP w id).queue.length + fuel + 4) (thenImpl w id f g).1 id v)
          w.promises.length).state = .fulfilled ∧
        (getP (doResolve ((getP w id).queue.length + fuel + 4) (thenImpl w id f g).1 id v)
          w.promises.length).value = v)) := by
  have hcond : ((!isFunction f && (PState.pending == PState.fulfilled))
      || (!isFunction g && (PState.pending == PState.rejected))) = false := by simp
  have hthen : thenImpl w id f g =
      (pushExec (allocPromise w).1 id ⟨w.promises.length, f, g⟩, w.promises.length) := by
    simp only [thenImpl, hp, hcond, pstate_beq_pp, Bool.false_eq_true, if_false, if_true,
      allocPromise]
  have hw1id : getP (thenImpl w id f g).1 id =
      ⟨.pending, (getP w id).value,
        (getP w id).queue ++ [⟨w.promises.length, f, g⟩]⟩ := by
    rw [hthen]
    unfold pushExec
    rw [getP_setP_self _ (by simp [allocPromise]; exact Nat.lt_succ_of_lt hid)]
    have h2 : getP (allocPromise w).1 id = getP w id := by
      unfold getP allocPromise
      exact getD_append_left _ _ _ _ hid
    rw [h2, hp]
  have hw1p2 : getP (thenImpl w id f g).1 w.promises.length =
      ⟨.pending, .num 0, []⟩ := by
    rw [hthen]
    unfold pushExec
    rw [getP_setP_ne _ (Nat.ne_of_lt hid)]
    unfold getP allocPromise
    rw [getD_append_len]
    rfl
  have hlen : ((thenImpl w id f g).1).promises.length = w.promises.length + 1 := by
    rw [hthen]
    simp [pushExec, setP, allocPromise]
  constructor
  · intro hg
    rw [doReject, hw1id]
    apply dispatchReject_last e w.promises.length f g hg (getP w id).queue fuel
    · rw [length_setP, hlen]
      exact Nat.lt_succ_self _
    · rw [getP_setP_ne _ (Nat.ne_of_lt hid), hw1p2]
  · intro hf hv
    simp only [doResolve, hv]
    rw [hw1id]
    apply dispatchResolve_last v hv w.promises.length f g hf (getP w id).queue fuel
    · rw [length_setP, hlen]
      exact Nat.lt_succ_self _
    · rw [getP_setP_ne _ (Nat.ne_of_lt hid), hw1p2]

/-- Witness for claim C8 at concrete inputs, exercising both pass-through
directions with the OTHER handler callable: rejection through a missing
onRejected while onFulfilled is util.noop, and fulfillment through a
missing onFulfilled while onRejected is util.noop. -/
theorem c8_missing_handler_passthrough_witness :
    0 < pendingWorld.promises.length ∧ (getP pendingWorld 0).state = .pending ∧
    isFunction (JSVal.undef) = false ∧ isFunction (JSVal.fn .noop) = true ∧
    getThen (.num 7) = none ∧
    ((getP (doReject ((getP pendingWorld 0).queue.length + 0 + 4)
        (thenImpl pendingWorld 0 (.fn .noop) .undef).1 0 (.str "err"))
        pendingWorld.promises.length).state = .rejected ∧
      (getP (doReject ((getP pendingWorld 0).queue.length + 0 + 4)
        (thenImpl pendingWorld 0 (.fn .noop) .undef).1 0 (.str "err"))
        pendingWorld.promises.length).value = .str "err") ∧
    ((getP (doResolve ((getP pendingWorld 0).queue.length + 0 + 4)
        (thenImpl pendingWorld 0 .undef (.fn .noop)).1 0 (.num 7))
        pendingWorld.promises.length).state = .fulfilled ∧
      (getP (doResolve ((getP pendingWorld 0).queue.length + 0 + 4)
        (thenImpl pendingWorld 0 .undef (.fn .noop)).1 0 (.num 7))
        pendingWorld.promises.length).value = .num 7) :=
  ⟨by decide, rfl, rfl, rfl, rfl,
    (c8_missing_handler_passthrough 0 pendingWorld 0 (.fn .noop) .undef (.num 7)
      (.str "err") (by decide) rfl).1 rfl,
    (c8_missing_handler_passthrough 0 pendingWorld 0 .undef (.fn .noop) (.num 7)
      (.str "err") (by decide) rfl).2 rfl rfl⟩

/-! Claim C9. -/

/-- Claim C9: no handler ever runs synchronously.  Registration (then)
and scheduling (__runInOrder) leave the invocation log untouched, and so
does the settlement dispatch itself (doReject always, doResolve for
non-thenable values): every callable handler is only ever queued as a
task.  The handler is invoked exactly when the scheduler later runs that
queued task, which is when the log grows by the invocation record. -/
theorem c9_handlers_never_synchronous :
    (∀ (w : World) (id : Nat) (f g : JSVal), ((thenImpl w id f g).1).log = w.log) ∧
    (∀ (w : World) (s : Nat) (fn v : JSVal), (runInOrder w s fn v).log = w.log) ∧
    (∀ (fuel : Nat) (w : World) (id : Nat) (e : JSVal),
      (doReject fuel w id e).log = w.log) ∧
    (∀ (fuel : Nat) (w : World) (id : Nat) (v : JSVal), getThen v = none →
      (doResolve fuel w id v).log = w.log) ∧
    (∀ (fuel : Nat) (w : World) (p2 : Nat) (r v : JSVal), getThen r = none →
      (stepTask (fuel + 1) { w with tasks := ⟨p2, .fn (.constFn r), v⟩ :: w.tasks }).log =
        LogEntry.mk (.fn (.constFn r)) v :: w.log) := by
  refine ⟨log_thenImpl, fun w s fn v => rfl, fun fuel w id e => (settle_log_pres fuel).1 w id e,
    fun fuel w id v hv => (settle_log_pres fuel).2.2.2.1 w id v hv, ?_⟩
  intro fuel w p2 r v hr
  show (runTask (fuel + 1) _ _).log = _
  rw [runTask]
  simp only [call2]
  by_cases hretsel : retEqSelf r p2
  · simp only [hretsel, if_true]
    rw [(settle_log_pres (fuel + 1)).1]
    simp
  · simp only [hretsel, Bool.false_eq_true, if_false]
    rw [(settle_log_pres (fuel + 1)).2.2.2.1 _ _ _ hr]
    simp

/-- Witness for claim C9 at concrete inputs: a then call, a rejection, a
non-thenable resolution and one scheduled task on concrete worlds. -/
theorem c9_handlers_never_synchronous_witness :
    ((thenImpl pendingWorld 0 (.fn .noop) .undef).1).log = pendingWorld.log ∧
    (doReject 3 pendingWorld 0 (.str "e")).log = pendingWorld.log ∧
    getThen (.num 2) = none ∧
    (doResolve 3 pendingWorld 0 (.num 2)).log = pendingWorld.log ∧
    (stepTask 1 { pendingWorld with
        tasks := ⟨0, .fn (.constFn (.num 2)), .num 9⟩ :: pendingWorld.tasks }).log =
      LogEntry.mk (.fn (.constFn (.num 2))) (.num 9) :: pendingWorld.log :=
  ⟨c9_handlers_never_synchronous.1 pendingWorld 0 (.fn .noop) .undef,
    c9_handlers_never_synchronous.2.2.1 3 pendingWorld 0 (.str "e"), rfl,
    c9_handlers_never_synchronous.2.2.2.1 3 pendingWorld 0 (.num 2) rfl,
    c9_handlers_never_synchronous.2.2.2.2 0 pendingWorld 0 (.num 2) (.num 9) rfl⟩

/-! Claim C6. -/

/-- Once the shared called-latch of a trigger pair reads true, running
any further sequence of resolve/reject invocations through that pair
changes neither the promise store nor the latch store: every invocation
is an observable no-op (only the invocation log grows). -/
theorem triggers_latched_noop (L T : Nat) : ∀ (fuel : Nat) (w : World)
    (script : List ScriptStep), getLatch w L = true →
    ((runScriptSteps fuel w (.fn (.resolveTrigger L T)) (.fn (.rejectTrigger L T))
        script).promises = w.promises ∧
      (runScriptSteps fuel w (.fn (.resolveTrigger L T)) (.fn (.rejectTrigger L T))
        script).latches = w.latches) := by
  intro fuel
  induction fuel with
  | zero =>
    intro w script h
    simp [runScriptSteps]
  | succ f ih =>
    intro w script h
    cases script with
    | nil => simp [runScriptSteps]
    | cons step rest =>
      have hstep : ∀ tr : JSVal,
          (tr = .fn (.resolveTrigger L T) ∨ tr = .fn (.rejectTrigger L T)) →
          ∀ v : JSVal, (call2 f w tr v .undef).1.promises = w.promises ∧
            (call2 f w tr v .undef).1.latches = w.latches := by
        intro tr htr v
        cases f with
        | zero => cases htr <;> subst_vars <;> simp [call2]
        | succ f2 =>
          have h2 : w.latches[L]?.getD false = true := by
            have h3 := h
            unfold getLatch at h3
            rw [List.getD_eq_getElem?_getD] at h3
            exact h3
          cases htr <;> subst_vars <;> simp [call2, getLatch, h2, logCall]
      cases step with
      | callRes v =>
        rw [runScriptSteps]
        have h1 := hstep (.fn (.resolveTrigger L T)) (Or.inl rfl) v
        have h2 : getLatch (call2 f w (.fn (.resolveTrigger L T)) v .undef).1 L = true := by
          rw [getLatch_congr h1.2]
          exact h
        have h3 := ih (call2 f w (.fn (.resolveTrigger L T)) v .undef).1 rest h2
        exact ⟨h3.1.trans h1.1, h3.2.trans h1.2⟩
      | callRej v =>
        rw [runScriptSteps]
        have h1 := hstep (.fn (.rejectTrigger L T)) (Or.inr rfl) v
        have h2 : getLatch (call2 f w (.fn (.rejectTrigger L T)) v .undef).1 L = true := by
          rw [getLatch_congr h1.2]
          exact h
        have h3 := ih (call2 f w (.fn (.rejectTrigger L T)) v .undef).1 rest h2
        exact ⟨h3.1.trans h1.1, h3.2.trans h1.2⟩

/-- The first invocation of either trigger of a fresh pair sets the
shared latch, and the latch stays set through the settlement work the
invocation performs. -/
theorem trigger_first_call_sets (g L T : Nat) (w : World) (v : JSVal)
    (hL : getLatch w L = false) (hlen : L < w.latches.length) :
    getLatch (call2 (g + 1) w (.fn (.resolveTrigger L T)) v .undef).1 L = true ∧
    getLatch (call2 (g + 1) w (.fn (.rejectTrigger L T)) v .undef).1 L = true := by
  have hset : getLatch (setLatch (logCall w (.fn (.resolveTrigger L T)) v) L true) L = true :=
    getD_set_self _ _ _ _ hlen
  have hset2 : getLatch (setLatch (logCall w (.fn (.rejectTrigger L T)) v) L true) L = true :=
    getD_set_self _ _ _ _ hlen
  constructor
  · simp only [call2]
    have hl : getLatch (logCall w (.fn (.resolveTrigger L T)) v) L = false := hL
    simp only [hl, Bool.false_eq_true, if_false]
    exact (latch_mono g).1 _ _ _ _ hset
  · simp only [call2]
    have hl : getLatch (logCall w (.fn (.rejectTrigger L T)) v) L = false := hL
    simp only [hl, Bool.false_eq_true, if_false]
    exact (latch_mono g).2.1 _ _ _ _ hset2

/-- A one-step script is exactly one trigger invocation. -/
theorem runScriptSteps_single (fuel : Nat) (w : World) (res rej : JSVal) (c : ScriptStep) :
    runScriptSteps (fuel + 1) w res rej [c] =
      (call2 fuel w (match c with | .callRes _ => res | .callRej _ => rej)
        (match c with | .callRes v => v | .callRej v => v) .undef).1 := by
  cases c with
  | callRes v =>
    rw [runScriptSteps]
    cases fuel <;> simp [runScriptSteps]
  | callRej v =>
    rw [runScriptSteps]
    cases fuel <;> simp [runScriptSteps]

/-- Claim C6: first-call-wins for a trigger pair.  For a fresh (unfired,
in-range) latch shared by a resolve/reject trigger pair — as handed to a
resolver by the constructor or exposed on a Deferred handle — running
any invocation sequence starting with call c leaves the promise store
exactly as running c alone does: the first invocation alone determines
every promise status and value, all later invocations are observable
no-ops; and the first invocation fires the latch. -/
theorem c6_first_call_wins (g : Nat) (w : World) (L T : Nat) (c : ScriptStep)
    (rest : List ScriptStep) (hL : getLatch w L = false)
    (hlen : L < w.latches.length) :
    (runScriptSteps (g + 2) w (.fn (.resolveTrigger L T)) (.fn (.rejectTrigger L T))
        (c :: rest)).promises =
      (runScriptSteps (g + 2) w (.fn (.resolveTrigger L T)) (.fn (.rejectTrigger L T))
        [c]).promises ∧
    getLatch (runScriptSteps (g + 2) w (.fn (.resolveTrigger L T)) (.fn (.rejectTrigger L T))
      [c]) L = true := by
  rw [runScriptSteps_single]
  cases c with
  | callRes v =>
    have hfirst := (trigger_first_call_sets g L T w v hL hlen).1
    constructor
    · rw [runScriptSteps]
      exact (triggers_latched_noop L T (g + 1) _ rest hfirst).1
    · exact hfirst
  | callRej v =>
    have hfirst := (trigger_first_call_sets g L T w v hL hlen).2
    constructor
    · rw [runScriptSteps]
      exact (triggers_latched_noop L T (g + 1) _ rest hfirst).1
    · exact hfirst

/-- Witness for claim C6 at a concrete input: the trigger pair of a
fresh Deferred handle, first resolved with 1 and then subjected to a
further reject and resolve. -/
theorem c6_first_call_wins_witness :
    (newDeferred emptyWorld).2.resolveFn = .fn (.resolveTrigger 0 0) ∧
    (newDeferred emptyWorld).2.rejectFn = .fn (.rejectTrigger 0 0) ∧
    getLatch (newDeferred emptyWorld).1 0 = false ∧
    0 < (newDeferred emptyWorld).1.latches.length ∧
    ((runScriptSteps 4 (newDeferred emptyWorld).1
        (.fn (.resolveTrigger 0 0)) (.fn (.rejectTrigger 0 0))
        (ScriptStep.callRes (.num 1) :: [.callRej (.str "x"), .callRes (.num 2)])).promises =
      (runScriptSteps 4 (newDeferred emptyWorld).1
        (.fn (.resolveTrigger 0 0)) (.fn (.rejectTrigger 0 0))
        [.callRes (.num 1)]).promises ∧
      getLatch (runScriptSteps 4 (newDeferred emptyWorld).1
        (.fn (.resolveTrigger 0 0)) (.fn (.rejectTrigger 0 0)) [.callRes (.num 1)]) 0 = true) :=
  ⟨rfl, rfl, rfl, by decide,
    c6_first_call_wins 2 (newDeferred emptyWorld).1 0 0 (.callRes (.num 1))
      [.callRej (.str "x"), .callRes (.num 2)] rfl (by decide)⟩

/-! Claim C4. -/

/-- A resolver that invokes its resolve trigger on the promise under
construction itself (reference 0 is the first promise allocated from the
empty world). -/
def c4Resolver : JSVal := .fn (.scriptResolver [.callRes (.promiseRef 0)])

/-- The world produced by constructing a promise with the self-resolving
resolver from the empty world. -/
def c4World : World :=
  match promiseCtor 20 emptyWorld c4Resolver with
  | .ok p => p.1
  | .error _ => emptyWorld

/-- Claim C4 counterexample: a Settlement whose resolver resolves with
the Settlement itself does NOT end up rejected with a type error — it
stays PENDING forever.  The adoption step registers the promise as its
own waiter (the queue holds one Executor carrying the adoption trigger
pair), no task is ever scheduled, and the world is quiescent under any
number of scheduler steps. -/
theorem c4_counterexample :
    (getP c4World 0).state = .pending ∧
    (getP c4World 0).state ≠ .rejected ∧
    c4World.tasks = [] ∧
    (∀ fuel n, drain fuel n c4World = c4World) ∧
    (getP c4World 0).queue =
      [⟨1, .fn (.resolveTrigger 1 0), .fn (.rejectTrigger 1 0)⟩] :=
  ⟨rfl, fun h => PState.noConfusion h, rfl, fun fuel n => drain_nil rfl fuel n, rfl⟩

/-- Claim C4 amended: resolving a Settlement with itself through the
resolver trigger leaves it pending forever — the adoption of the promise
as a thenable registers it as its own waiter (a fresh Executor carrying
the second trigger pair), schedules nothing, and never settles it.  The
type-error guard for self-resolution lives only in the deferred dispatch
step __runInOrder: when a scheduled handler returns the very promise the
task is to settle, that promise is rejected with the type error
"Cannot resolve promise with itself.". -/
theorem c4_self_resolution (g : Nat) (w : World) (p2 : Nat) (v : JSVal)
    (hp2 : p2 < w.promises.length) :
    (∃ w2, promiseCtor (g + 7) w
        (.fn (.scriptResolver [.callRes (.promiseRef w.promises.length)])) =
      .ok (w2, w.promises.length) ∧
      (getP w2 w.promises.length).state = .pending ∧
      w2.tasks = w.tasks ∧
      (getP w2 w.promises.length).queue =
        [⟨w.promises.length + 1,
          .fn (.resolveTrigger (w.latches.length + 1) w.promises.length),
          .fn (.rejectTrigger (w.latches.length + 1) w.promises.length)⟩]) ∧
    ((getP (runTask (g + 1) w ⟨p2, .fn (.constFn (.promiseRef p2)), v⟩) p2).state
        = .rejected ∧
      (getP (runTask (g + 1) w ⟨p2, .fn (.constFn (.promiseRef p2)), v⟩) p2).value =
        .typeError "Cannot resolve promise with itself.") := by
  constructor
  · set n := w.promises.length with hn
    set R : JSVal := .fn (.scriptResolver [.callRes (.promiseRef n)]) with hR
    set L0 := w.latches.length with hL0
    set res0 : JSVal := .fn (.resolveTrigger L0 n) with hres0
    set rej0 : JSVal := .fn (.rejectTrigger L0 n) with hrej0
    set Wc := logCall (allocLatch (allocPromise w).1).1 R res0 with hWc
    have hA : promiseCtor (g + 7) w R = .ok (callThen (g + 7) (allocPromise w).1 n R, n) := rfl
    have hB : callThen (g + 7) (allocPromise w).1 n R =
        runScriptSteps (g + 5) Wc res0 rej0 [.callRes (.promiseRef n)] := by
      rw [callThen]
      simp only [call2]
      rfl
    set Wd := logCall Wc res0 (.promiseRef n) with hWd
    have hC : runScriptSteps (g + 5) Wc res0 rej0 [.callRes (.promiseRef n)] =
        (call2 (g + 4) Wc res0 (.promiseRef n) .undef).1 :=
      runScriptSteps_single (g + 4) Wc res0 rej0 (.callRes (.promiseRef n))
    have hlatchD : getLatch Wd L0 = false := by
      show (w.latches ++ [false]).getD L0 false = false
      rw [hL0, getD_append_len]
      rfl
    have hD : (call2 (g + 4) Wc res0 (.promiseRef n) .undef).1 =
        doResolve (g + 3) (setLatch Wd L0 true) n (.promiseRef n) := by
      rw [hres0]
      simp only [call2]
      rw [hlatchD]
      simp
    set We := setLatch Wd L0 true with hWe
    have hE : doResolve (g + 3) We n (.promiseRef n) =
        callThen (g + 2) We n (.fn (.boundThen n)) := by
      simp only [doResolve, getThen]
    set Wf := (allocLatch We).1 with hWf
    set L1 := We.latches.length with hL1
    set res1 : JSVal := .fn (.resolveTrigger L1 n) with hres1
    set rej1 : JSVal := .fn (.rejectTrigger L1 n) with hrej1
    have hF : callThen (g + 2) We n (.fn (.boundThen n)) =
        (call2 (g + 1) Wf (.fn (.boundThen n)) res1 rej1).1 :=
      callThen_boundThen_eq (g + 1) We n n
    set Wg := logCall Wf (.fn (.boundThen n)) res1 with hWg
    have hG : (call2 (g + 1) Wf (.fn (.boundThen n)) res1 rej1).1 =
        (thenImpl Wg n res1 rej1).1 := by
      simp only [call2]
    have hpg : getP Wg n = ⟨.pending, .num 0, []⟩ := by
      show (w.promises ++ [(⟨.pending, .num 0, []⟩ : PromiseObj)]).getD n
          (⟨.pending, .undef, []⟩ : PromiseObj) = (⟨.pending, .num 0, []⟩ : PromiseObj)
      rw [hn, getD_append_len]
      rfl
    have hcond : ((!isFunction res1 && (PState.pending == PState.fulfilled))
        || (!isFunction rej1 && (PState.pending == PState.rejected))) = false := by
      rw [hres1, hrej1]
      simp [isFunction]
    have hH : thenImpl Wg n res1 rej1 =
        (pushExec (allocPromise Wg).1 n ⟨Wg.promises.length, res1, rej1⟩,
          Wg.promises.length) := by
      simp only [thenImpl, hpg, hcond, pstate_beq_pp, Bool.false_eq_true, if_false, if_true,
        allocPromise]
    set W2 := pushExec (allocPromise Wg).1 n ⟨Wg.promises.length, res1, rej1⟩ with hW2
    have hnWg : Wg.promises.length = n + 1 := by
      show (w.promises ++ [(⟨.pending, .num 0, []⟩ : PromiseObj)]).length = n + 1
      simp [hn]
    have hfinal : getP W2 n = ⟨.pending, .num 0, [⟨n + 1, res1, rej1⟩]⟩ := by
      rw [hW2]
      unfold pushExec
      rw [getP_setP_self _ (by simp [allocPromise, hnWg]; omega)]
      have h2 : getP (allocPromise Wg).1 n = getP Wg n := by
        unfold getP allocPromise
        exact getD_append_left _ _ _ _ (by rw [hnWg]; omega)
      rw [h2, hpg, hnWg]
      rfl
    have hL1val : L1 = w.latches.length + 1 := by
      rw [hL1, hWe, hWd, hWc]
      show ((w.latches ++ [false]).set L0 true).length = w.latches.length + 1
      simp
    refine ⟨W2, ?_, ?_, ?_, ?_⟩
    · rw [hA, hB, hC, hD, hE, hF, hG, hH]
    · rw [hfinal]
    · rfl
    · rw [hfinal, hres1, hrej1, hL1val]
  · rw [runTask]
    simp only [call2]
    have hself : retEqSelf (.promiseRef p2) p2 = true := by simp [retEqSelf]
    simp only [hself, if_true]
    rw [doReject]
    apply (rejected_stable p2 _ g).2.1
    have hp2b : p2 <
        (logCall w (.fn (.constFn (.promiseRef p2))) v).promises.length := hp2
    rw [getP_setP_self _ hp2b]
    exact ⟨rfl, rfl⟩

/-- Witness for the amended claim C4 at a concrete input. -/
theorem c4_self_resolution_witness :
    0 < pendingWorld.promises.length ∧
    ((∃ w2, promiseCtor 7 pendingWorld
        (.fn (.scriptResolver [.callRes (.promiseRef pendingWorld.promises.length)])) =
      .ok (w2, pendingWorld.promises.length) ∧
      (getP w2 pendingWorld.promises.length).state = .pending ∧
      w2.tasks = pendingWorld.tasks ∧
      (getP w2 pendingWorld.promises.length).queue =
        [⟨pendingWorld.promises.length + 1,
          .fn (.resolveTrigger (pendingWorld.latches.length + 1)
            pendingWorld.promises.length),
          .fn (.rejectTrigger (pendingWorld.latches.length + 1)
            pendingWorld.promises.length)⟩]) ∧
    ((getP (runTask 1 pendingWorld
        ⟨0, .fn (.constFn (.promiseRef 0)), .num 9⟩) 0).state = .rejected ∧
      (getP (runTask 1 pendingWorld
        ⟨0, .fn (.constFn (.promiseRef 0)), .num 9⟩) 0).value =
        .typeError "Cannot resolve promise with itself.")) :=
  ⟨by decide, c4_self_resolution 0 pendingWorld 0 (.num 9) (by decide)⟩

end PromiseSpec
